import Mathlib

/-!
Verification development for the AI code-review pipeline of this repository.

The definitions below are shallow embeddings of the TypeScript sources:
  - `src/backend/src/utils/tokenCounter.ts` (token estimation),
  - the context slicer (`sliceContext`),
  - `src/backend/src/services/ai/promptBuilder.ts` (prompt building and
    response parsing, including a model of JavaScript `JSON.parse`),
  - `src/backend/src/services/ai/index.ts` / `BaseAIService.ts` /
    `OpenAIService.ts` (provider registry, availability, ordered failover),
  - the `POST /api/ai/scan` route's issue extraction.

JavaScript strings are modelled as Lean `String`/`List Char` (UTF-16 surrogate
pairs are out of scope for every statement proved here); JavaScript numbers
appearing as counts/indices are modelled as `Nat`/`Int` with the source's
`Math.max`/`Math.min`/`Math.floor` made explicit.
-/

/-- JavaScript whitespace class: the characters matched by the regex class
backslash-s and removed by `String.prototype.trim`. -/
def isJsWs (c : Char) : Bool :=
  c = ' ' || c = '\t' || c = '\n' || c = '\x0b' || c = '\x0c' || c = '\r' ||
  c = ' ' || c = ' ' ||
  (0x2000 ≤ c.toNat && c.toNat ≤ 0x200a) ||
  c = ' ' || c = ' ' || c = ' ' || c = ' ' ||
  c = '　' || c = '﻿'

/-- JavaScript line terminators: the characters NOT matched by the regex dot. -/
def isLineTerm (c : Char) : Bool :=
  c = '\n' || c = '\r' || c = ' ' || c = ' '

/-- ASCII alphanumeric, the regex class a-zA-Z0-9. -/
def isAsciiAlnum (c : Char) : Bool :=
  c.isAlpha || c.isDigit

/-- Trim per `String.prototype.trim`: strip JS whitespace from both ends. -/
def jsTrim (cs : List Char) : List Char :=
  ((cs.dropWhile isJsWs).reverse.dropWhile isJsWs).reverse

/-- Value of a digit run, as computed by `parseInt(digits, 10)`. -/
def natOfDigits (ds : List Char) : Nat :=
  ds.foldl (fun a c => 10 * a + (c.toNat - 48)) 0

/-- Split on a newline character, as `fileContent.split(newline)` does:
the empty text yields one empty line. -/
def splitLines : List Char → List (List Char)
  | [] => [[]]
  | c :: rest =>
    if c = '\n' then [] :: splitLines rest
    else
      match splitLines rest with
      | line :: ls => (c :: line) :: ls
      | [] => [[c]]

/-- Join lines with a newline character, as `lines.join(newline)` does. -/
def joinLines : List (List Char) → List Char
  | [] => []
  | [l] => l
  | l :: ls => l ++ '\n' :: joinLines ls

/-- The two-argument `Array.prototype.slice`/`String.prototype.slice` for
nonnegative indices: elements from `a` (inclusive) to `b` (exclusive). -/
def jsSlice {α : Type} (a b : Nat) (l : List α) : List α :=
  (l.drop a).take (b - a)

/-! ## Token Budgeter (`src/backend/src/utils/tokenCounter.ts`) -/

/-- Number of entries of `text.split(regex whitespace-run).filter(Boolean)`:
the number of maximal runs of non-whitespace characters. The flag records
whether the previous character belonged to a word. -/
def countWordsAux : List Char → Bool → Nat
  | [], _ => 0
  | c :: rest, inWord =>
    if isJsWs c then countWordsAux rest false
    else (if inWord then 0 else 1) + countWordsAux rest true

/-- Word count used by `estimateTokenCount`. -/
def countWords (text : String) : Nat :=
  countWordsAux text.data false

/-- Count of characters matching the regex class "not a-zA-Z0-9 and not
whitespace", as `text.match(...).length` computes. -/
def countSpecialChars (text : String) : Nat :=
  text.data.countP (fun c => !isAsciiAlnum c && !isJsWs c)

/-- Embedding of `estimateTokenCount` (tokenCounter.ts):
`Math.ceil(words.length + specialChars * 0.5 + text.length / 10)`.
Every addend is a multiple of one tenth, so the ceiling equals the integer
division form used here; `estimateTokenCount_eq_ceil` proves the equivalence
with the ceiling of the exact rational value. -/
def estimateTokenCount (text : String) : Nat :=
  (10 * countWords text + 5 * countSpecialChars text + text.length + 9) / 10

/-! ## Context Slicer (`sliceContext`) -/

/-- Configuration for context slicing (interface `ContextSlicerConfig`). -/
structure ContextSlicerConfig where
  linesBefore : Nat
  linesAfter : Nat
  maxTotalLines : Nat
  maxCharacters : Nat
deriving DecidableEq, Repr

/-- The source's `DEFAULT_CONFIG`. -/
def DEFAULT_CONFIG : ContextSlicerConfig :=
  { linesBefore := 20, linesAfter := 20, maxTotalLines := 100, maxCharacters := 10000 }

/-- Result of context slicing (interface `SlicedContext`). -/
structure SlicedContext where
  beforeContext : String
  selectedCode : String
  afterContext : String
  fullContext : String
  contextStartLine : Nat
  contextEndLine : Nat
  wasTruncated : Bool
  originalLineCount : Nat
deriving DecidableEq, Repr

/-- The window-boundary computation of `sliceContext`: the naive window
clamped to the file, then, if its line count exceeds `maxTotalLines`,
recentered around the selection midpoint and clamped again. Returns
(contextStartLine, contextEndLine, whether the line-count path triggered). -/
def computeWindow (totalLines selS selE : Nat) (cfg : ContextSlicerConfig) :
    Nat × Nat × Bool :=
  let s0 := max 1 (selS - cfg.linesBefore)
  let e0 := min totalLines (selE + cfg.linesAfter)
  let totalContextLines : Int := (e0 : Int) - (s0 : Int) + 1
  if totalContextLines > (cfg.maxTotalLines : Int) then
    let halfMax := cfg.maxTotalLines / 2
    let selectionMid := (selS + selE) / 2
    let s1 := max 1 (selectionMid - halfMax)
    (s1, min totalLines (s1 + cfg.maxTotalLines - 1), true)
  else (s0, e0, false)

/-- The character-budget step of `sliceContext`. `before.slice(-halfAvailable)`
with `halfAvailable = 0` is `slice(-0) = slice(0)`, the whole string, hence the
explicit zero case. Returns (before, selected, after, wasTruncated). -/
def charTruncate (before sel after : List Char) (maxChars : Nat) :
    List Char × List Char × List Char × Bool :=
  if before.length + sel.length + after.length > maxChars then
    let availableChars : Int := (maxChars : Int) - (sel.length : Int)
    if availableChars > 0 then
      let halfAvailable := availableChars.toNat / 2
      let b :=
        if before.length > halfAvailable then
          "...\n".data ++
            (if halfAvailable = 0 then before else before.drop (before.length - halfAvailable))
        else before
      let a :=
        if after.length > halfAvailable then after.take halfAvailable ++ "\n...".data
        else after
      (b, sel, a, true)
    else
      ([], sel.take maxChars ++ "\n... (truncated)".data, [], true)
  else (before, sel, after, false)

/-- Embedding of `sliceContext(fileContent, selectionStartLine,
selectionEndLine, config)` with an explicit (fully merged) configuration. -/
def sliceContext (fileContent : String) (selS selE : Nat)
    (cfg : ContextSlicerConfig) : SlicedContext :=
  let lines := splitLines fileContent.data
  let totalLines := lines.length
  let w := computeWindow totalLines selS selE cfg
  let ctxS := w.1
  let ctxE := w.2.1
  let lineOver := w.2.2
  let beforeLines := jsSlice (ctxS - 1) (selS - 1) lines
  let selectedLines := jsSlice (selS - 1) selE lines
  let afterLines := jsSlice selE ctxE lines
  let t := charTruncate (joinLines beforeLines) (joinLines selectedLines)
    (joinLines afterLines) cfg.maxCharacters
  let b := t.1
  let s := t.2.1
  let a := t.2.2.1
  let charTrunc := t.2.2.2
  let full := joinLines (([b, s, a].filter (fun x => !x.isEmpty)))
  { beforeContext := String.mk b
    selectedCode := String.mk s
    afterContext := String.mk a
    fullContext := String.mk full
    contextStartLine := ctxS
    contextEndLine := ctxE
    wasTruncated := charTrunc || lineOver
    originalLineCount := totalLines }

/-- The verbatim text of the selected lines `[selS, selE]` of the file,
that is `lines.slice(selS - 1, selE).join(newline)`. -/
def selectedText (fileContent : String) (selS selE : Nat) : String :=
  String.mk (joinLines (jsSlice (selS - 1) selE (splitLines fileContent.data)))

/-- Combined character count of the three window pieces of `sliceContext`
before any character-budget truncation. -/
def windowCharCount (fileContent : String) (selS selE : Nat)
    (cfg : ContextSlicerConfig) : Nat :=
  let lines := splitLines fileContent.data
  let w := computeWindow lines.length selS selE cfg
  (joinLines (jsSlice (w.1 - 1) (selS - 1) lines)).length +
    (joinLines (jsSlice (selS - 1) selE lines)).length +
    (joinLines (jsSlice selE w.2.1 lines)).length

/-! ## Response Parser (`promptBuilder.ts`): JSON model and `parseReviewResponse` -/

/-- Runtime JSON values as produced by `JSON.parse`. Objects keep their
key/value pairs in source order (a duplicated key is resolved to its last
occurrence at lookup time, as JavaScript object literals do). -/
inductive Json where
  | null : Json
  | bool : Bool → Json
  | num : ℚ → Json
  | str : String → Json
  | arr : List Json → Json
  | obj : List (String × Json) → Json

/-- JSON whitespace accepted by `JSON.parse` between tokens. -/
def isJsonWs (c : Char) : Bool :=
  c = ' ' || c = '\t' || c = '\n' || c = '\r'

/-- Skip JSON whitespace. -/
def skipJsonWs (cs : List Char) : List Char :=
  cs.dropWhile isJsonWs

/-- Hex digit value, if any. -/
def hexVal (c : Char) : Option Nat :=
  if c.isDigit then some (c.toNat - 48)
  else if 'a' ≤ c && c ≤ 'f' then some (c.toNat - 87)
  else if 'A' ≤ c && c ≤ 'F' then some (c.toNat - 55)
  else none

/-- Parse the body of a JSON string (the opening quote already consumed),
handling the escape sequences `JSON.parse` accepts and rejecting unescaped
control characters. Returns the decoded characters and the remaining input. -/
def parseJStringAux : List Char → List Char → Option (List Char × List Char)
  | acc, '"' :: rest => some (acc.reverse, rest)
  | acc, '\\' :: '"' :: rest => parseJStringAux ('"' :: acc) rest
  | acc, '\\' :: '\\' :: rest => parseJStringAux ('\\' :: acc) rest
  | acc, '\\' :: '/' :: rest => parseJStringAux ('/' :: acc) rest
  | acc, '\\' :: 'b' :: rest => parseJStringAux ('\x08' :: acc) rest
  | acc, '\\' :: 'f' :: rest => parseJStringAux ('\x0c' :: acc) rest
  | acc, '\\' :: 'n' :: rest => parseJStringAux ('\n' :: acc) rest
  | acc, '\\' :: 'r' :: rest => parseJStringAux ('\r' :: acc) rest
  | acc, '\\' :: 't' :: rest => parseJStringAux ('\t' :: acc) rest
  | acc, '\\' :: 'u' :: h1 :: h2 :: h3 :: h4 :: rest =>
    match hexVal h1, hexVal h2, hexVal h3, hexVal h4 with
    | some a, some b, some c, some d =>
      parseJStringAux (Char.ofNat (((a * 16 + b) * 16 + c) * 16 + d) :: acc) rest
    | _, _, _, _ => none
  | _, '\\' :: _ => none
  | acc, c :: rest =>
    if c.toNat < 0x20 then none else parseJStringAux (c :: acc) rest
  | _, [] => none

/-- Parse a JSON number per the JSON grammar (optional minus; `0` or a
nonzero-led digit run; optional fraction; optional exponent), returning its
exact rational value and the remaining input. -/
def parseJNumber (cs : List Char) : Option (ℚ × List Char) :=
  let (neg, cs1) := match cs with
    | '-' :: r => (true, r)
    | _ => (false, cs)
  let intPart : Option (List Char × List Char) :=
    match cs1 with
    | '0' :: r => if r.head?.any Char.isDigit then none else some (['0'], r)
    | c :: r =>
      if c.isDigit && c ≠ '0' then
        some (c :: r.takeWhile Char.isDigit, r.dropWhile Char.isDigit)
      else none
    | [] => none
  match intPart with
  | none => none
  | some (ids, cs2) =>
    let fracPart : Option (List Char × List Char) :=
      match cs2 with
      | '.' :: r =>
        let fs := r.takeWhile Char.isDigit
        if fs.isEmpty then none else some (fs, r.dropWhile Char.isDigit)
      | _ => some ([], cs2)
    match fracPart with
    | none => none
    | some (fds, cs3) =>
      let expPart : Option (Int × List Char) :=
        match cs3 with
        | e :: r =>
          if e = 'e' || e = 'E' then
            let (esign, r1) := match r with
              | '+' :: r' => ((1 : Int), r')
              | '-' :: r' => ((-1 : Int), r')
              | _ => ((1 : Int), r)
            let es := r1.takeWhile Char.isDigit
            if es.isEmpty then none
            else some (esign * (natOfDigits es : Int), r1.dropWhile Char.isDigit)
          else some (0, cs3)
        | [] => some (0, cs3)
      match expPart with
      | none => none
      | some (ex, cs4) =>
        let mantissa : ℚ := (natOfDigits (ids ++ fds) : ℚ) / ((10 : ℚ) ^ fds.length)
        let value : ℚ := (if neg then -mantissa else mantissa) * (10 : ℚ) ^ ex
        some (value, cs4)

/-- Generic member loop for a JSON object, parameterized by the value parser
`pv`; `fuel` bounds the number of members. Expects the input just after the
opening brace (leading whitespace not yet skipped), with the empty-object
case already handled by the caller. -/
def parseJMembers (pv : List Char → Option (Json × List Char)) :
    Nat → List (String × Json) → List Char → Option (List (String × Json) × List Char)
  | 0, _, _ => none
  | fuel + 1, acc, cs =>
    match skipJsonWs cs with
    | '"' :: rest =>
      match parseJStringAux [] rest with
      | none => none
      | some (key, cs1) =>
        match skipJsonWs cs1 with
        | ':' :: cs2 =>
          match pv cs2 with
          | none => none
          | some (v, cs3) =>
            match skipJsonWs cs3 with
            | ',' :: cs4 => parseJMembers pv fuel ((String.mk key, v) :: acc) cs4
            | '}' :: cs4 => some (((String.mk key, v) :: acc).reverse, cs4)
            | _ => none
        | _ => none
    | _ => none

/-- Generic element loop for a JSON array, parameterized by the value parser
`pv`; the empty-array case is handled by the caller. -/
def parseJElems (pv : List Char → Option (Json × List Char)) :
    Nat → List Json → List Char → Option (List Json × List Char)
  | 0, _, _ => none
  | fuel + 1, acc, cs =>
    match pv cs with
    | none => none
    | some (v, cs1) =>
      match skipJsonWs cs1 with
      | ',' :: cs2 => parseJElems pv fuel (v :: acc) cs2
      | ']' :: cs2 => some ((v :: acc).reverse, cs2)
      | _ => none

/-- Parse one JSON value (leading whitespace allowed), with `fuel` bounding
the nesting depth. Returns the value and the remaining input. -/
def parseJVal : Nat → List Char → Option (Json × List Char)
  | 0, _ => none
  | fuel + 1, cs =>
    match skipJsonWs cs with
    | '{' :: rest =>
      match skipJsonWs rest with
      | '}' :: cs1 => some (.obj [], cs1)
      | _ =>
        match parseJMembers (parseJVal fuel) fuel [] rest with
        | some (fs, cs1) => some (.obj fs, cs1)
        | none => none
    | '[' :: rest =>
      match skipJsonWs rest with
      | ']' :: cs1 => some (.arr [], cs1)
      | _ =>
        match parseJElems (parseJVal fuel) fuel [] rest with
        | some (vs, cs1) => some (.arr vs, cs1)
        | none => none
    | '"' :: rest =>
      match parseJStringAux [] rest with
      | some (s, cs1) => some (.str (String.mk s), cs1)
      | none => none
    | 't' :: 'r' :: 'u' :: 'e' :: cs1 => some (.bool true, cs1)
    | 'f' :: 'a' :: 'l' :: 's' :: 'e' :: cs1 => some (.bool false, cs1)
    | 'n' :: 'u' :: 'l' :: 'l' :: cs1 => some (.null, cs1)
    | rest =>
      match parseJNumber rest with
      | some (q, cs1) => some (.num q, cs1)
      | none => none

/-- Model of `JSON.parse(text)`: one JSON value covering the whole input up
to trailing whitespace, `none` where `JSON.parse` throws. The fuel
`text.length + 1` dominates any possible nesting depth or member count. -/
def jsonParse (text : String) : Option Json :=
  match parseJVal (text.length + 1) text.data with
  | some (j, rest) => if skipJsonWs rest = [] then some j else none
  | none => none

/-- Property access `parsed[key]` on a parsed JSON value: on an object, the
value at `key` (last duplicate wins, as in JavaScript); otherwise absent. -/
def jsGetField : Json → String → Option Json
  | .obj fs, key => fs.reverse.lookup key
  | _, _ => none

/-- JavaScript truthiness of a parsed JSON value. -/
def jsTruthy : Json → Bool
  | .null => false
  | .bool b => b
  | .num q => q ≠ 0
  | .str s => s ≠ ""
  | .arr _ => true
  | .obj _ => true

/-- Index of the first character satisfying `p`. -/
def firstIdx (p : Char → Bool) (cs : List Char) : Option Nat :=
  cs.findIdx? p

/-- Index of the last character satisfying `p`. -/
def lastIdx (p : Char → Bool) (cs : List Char) : Option Nat :=
  (cs.reverse.findIdx? p).map (fun k => cs.length - 1 - k)

/-- Model of `response.match` with the pattern "brace-open, a greedy run of
any characters, brace-close": when it matches, the match spans from the first
brace-open that is followed by a brace-close to the last brace-close of the
whole text, so the extracted span runs from the first brace-open to the last
brace-close whenever the former precedes the latter. -/
def extractJsonSpan (s : String) : Option String :=
  match firstIdx (fun c => c = '{') s.data, lastIdx (fun c => c = '}') s.data with
  | some i, some j =>
    if i < j then some (String.mk ((s.data.drop i).take (j - i + 1))) else none
  | _, _ => none

/-- The structured result of `parseReviewResponse`, with fields holding the
runtime JSON values the JavaScript code would return. -/
structure ParsedReview where
  explanation : Json
  suggestions : List Json
  diff : Option Json

/-- Embedding of `parseReviewResponse` (promptBuilder.ts): extract the first
brace-delimited span and `JSON.parse` it; on success take `explanation`
(defaulted when falsy, e.g. absent or the empty string), `suggestions` only
when it is an array, and `diff` only when truthy; on any failure fall back to
the whole raw response as the explanation. Total by construction: the
JavaScript original never throws. -/
def parseReviewResponse (response : String) : ParsedReview :=
  match extractJsonSpan response with
  | some sp =>
    match jsonParse sp with
    | some parsed =>
      { explanation :=
          match jsGetField parsed "explanation" with
          | some v => if jsTruthy v then v else .str "No explanation provided."
          | none => .str "No explanation provided."
        suggestions :=
          match jsGetField parsed "suggestions" with
          | some (.arr xs) => xs
          | _ => []
        diff :=
          match jsGetField parsed "diff" with
          | some v => if jsTruthy v then some v else none
          | none => none }
    | none => { explanation := .str response, suggestions := [], diff := none }
  | none => { explanation := .str response, suggestions := [], diff := none }

/-! ## Prompt Builder and Provider Abstraction
(`promptBuilder.ts`, `BaseAIService.ts`, `OpenAIService.ts`, `index.ts`) -/

/-- One entry of `ReviewInput.additionalFiles`. -/
structure AdditionalFile where
  name : String
  content : String
  language : String

/-- The `ReviewInput` value object. -/
structure ReviewInput where
  codeContext : String
  selectedCode : String
  language : String
  query : Option String := none
  fileName : Option String := none
  additionalFiles : Option (List AdditionalFile) := none

/-- JavaScript truthiness filter for an optional string: the result of using
the value in a condition or on the left of a logical-or (an absent value and
the empty string are both falsy). -/
def truthyStr : Option String → Option String
  | some s => if s = "" then none else some s
  | none => none

/-- The static `SYSTEM_PROMPT` of promptBuilder.ts. -/
def SYSTEM_PROMPT : String :=
  "You are an expert code reviewer. Your task is to analyze code and provide helpful, constructive feedback.\n\nWhen reviewing code, you should:\n1. Identify potential bugs, errors, or issues\n2. Suggest improvements for code quality, readability, and maintainability\n3. Point out security vulnerabilities if any\n4. Recommend best practices and design patterns\n5. Provide clear explanations for your suggestions\n\nFormat your response as JSON with the following structure:\n\x7b\n  \"explanation\": \"A clear explanation of what the code does and any issues found\",\n  \"suggestions\": [\"Array of specific suggestions for improvement\"],\n  \"diff\": \"Optional: A GitHub-style diff showing suggested changes (use - for removed lines, + for added lines)\"\n\x7d\n\nBe concise but thorough. Focus on the most important issues first."

/-- The `getSystemPrompt()` accessor. -/
def getSystemPrompt : String := SYSTEM_PROMPT

/-- Embedding of `buildReviewPrompt(input)`: file name line (when truthy),
language line, user question (when truthy), fenced code context, fenced
selected code, additional files, closing instruction. -/
def buildReviewPrompt (input : ReviewInput) : String :=
  (match truthyStr input.fileName with
   | some f => "File: " ++ f ++ "\n"
   | none => "") ++
  "Language: " ++ input.language ++ "\n\n" ++
  (match truthyStr input.query with
   | some q => "User question: " ++ q ++ "\n\n"
   | none => "") ++
  "Code context:\n```" ++ input.language ++ "\n" ++ input.codeContext ++ "\n```\n\n" ++
  "Selected code to review:\n```" ++ input.language ++ "\n" ++ input.selectedCode ++ "\n```\n\n" ++
  (match input.additionalFiles with
   | some fs =>
     if fs.length > 0 then
       "Additional files for context:\n\n" ++
         fs.foldl (fun acc file =>
           acc ++ "--- " ++ file.name ++ " ---\n```" ++ file.language ++ "\n" ++
             file.content ++ "\n```\n\n") ""
     else ""
   | none => "") ++
  "Please review the selected code and provide your analysis in JSON format."

/-- The `ReviewOutput` value object: the parsed reply tagged with the
producing adapter's identifiers. -/
structure ReviewOutput where
  explanation : Json
  suggestions : List Json
  diff : Option Json
  provider : String
  model : String

/-- A provider adapter as the failover orchestrator sees it: its identifiers,
the configuration-derived availability flag, and the upstream completion
exchange (the single network call a `review` performs), modelled as a fixed
outcome per (system prompt, user prompt) pair. -/
structure AIServiceModel where
  provider : String
  model : String
  available : Bool
  completion : String → String → Except String String

/-- Embedding of `BaseAIService.review(input)`: fail fast when unavailable,
build the prompts, perform the one upstream call, parse the raw reply, tag
with this adapter's provider and model; an upstream error propagates. -/
def review (svc : AIServiceModel) (input : ReviewInput) : Except String ReviewOutput :=
  if !svc.available then
    .error (svc.provider ++ " service is not available or not configured")
  else
    match svc.completion getSystemPrompt (buildReviewPrompt input) with
    | .error e => .error e
    | .ok raw =>
      let parsed := parseReviewResponse raw
      .ok { explanation := parsed.explanation
            suggestions := parsed.suggestions
            diff := parsed.diff
            provider := svc.provider
            model := svc.model }

/-- The loop of `generateReviewWithFallback`: try each service in order,
return at the first success, remember the last error otherwise. The second
component instruments the loop with the providers whose `review` was
invoked, in invocation order. -/
def runFallback (input : ReviewInput) :
    List AIServiceModel → Option String → Except String ReviewOutput × List String
  | [], lastError => (.error (lastError.getD "All AI services failed"), [])
  | svc :: rest, _ =>
    match review svc input with
    | .ok out => (.ok out, [svc.provider])
    | .error e =>
      let r := runFallback input rest (some e)
      (r.1, svc.provider :: r.2)

/-- Embedding of `generateReviewWithFallback`, parameterized by the ordered
list of available services the factory returned; paired with the ordered
trace of providers whose `review` was invoked. -/
def generateReviewWithFallback (services : List AIServiceModel)
    (input : ReviewInput) : Except String ReviewOutput × List String :=
  match services with
  | [] => (.error "No AI services available. Please configure at least one provider.", [])
  | _ :: _ => runFallback input services none

/-! ## Provider Registry (`AIServiceFactory`, backend variant with the single
provider identifier "openai") -/

/-- The environment variables the factory and the OpenAI adapter read. -/
structure OpenAIEnv where
  OPENAI_API_KEY : Option String
  OPENAI_MODEL : Option String
  AI_PROVIDER : Option String

/-- Embedding of `new OpenAIService()` (no explicit config): the model
identifier and API key come from the environment with the source's
defaults; the client exists, and `isAvailable()` is true, exactly when the
key is truthy at construction time. `upstream` stands for the network
exchange behind `generateCompletion`. -/
def mkOpenAIService (env : OpenAIEnv)
    (upstream : String → String → Except String String) : AIServiceModel :=
  let apiKey := truthyStr env.OPENAI_API_KEY
  { provider := "openai"
    model := (truthyStr env.OPENAI_MODEL).getD "gpt-4-turbo-preview"
    available := apiKey.isSome
    completion := fun s u =>
      if apiKey.isSome then upstream s u else .error "OpenAI client not initialized" }

/-- Embedding of `AIServiceFactory.getService(provider?)`: resolve the
identifier (argument, else `AI_PROVIDER`, else "openai"), return the cached
instance when present, else construct, cache and return a new one; an
unknown identifier throws. The cache is the single "openai" slot, the only
identifier the backend factory knows. -/
def getService (env : OpenAIEnv) (upstream : String → String → Except String String)
    (provider : Option String) (cache : Option AIServiceModel) :
    Except String (AIServiceModel × Option AIServiceModel) :=
  let selected := ((truthyStr provider).getD ((truthyStr env.AI_PROVIDER).getD "openai"))
  if selected = "openai" then
    match cache with
    | some svc => .ok (svc, some svc)
    | none =>
      let svc := mkOpenAIService env upstream
      .ok (svc, some svc)
  else .error ("Unknown AI provider: " ++ selected)

/-- Embedding of `AIServiceFactory.getAvailableServices()`: resolve every
known provider identifier (here "openai"), keep those that construct and
report `isAvailable()`, silently skipping failures. -/
def getAvailableServices (env : OpenAIEnv)
    (upstream : String → String → Except String String)
    (cache : Option AIServiceModel) :
    List AIServiceModel × Option AIServiceModel :=
  match getService env upstream (some "openai") cache with
  | .ok (svc, cache') => (if svc.available then [svc] else [], cache')
  | .error _ => ([], cache)

/-- Embedding of `AIServiceFactory.clearInstances()`: the emptied cache. -/
def clearInstances : Option AIServiceModel := none

/-! ## Issue Extractor (`POST /api/ai/scan` route) -/

/-- Issue severity. -/
inductive Severity where
  | error : Severity
  | warning : Severity
  | info : Severity
deriving DecidableEq, Repr

/-- A parsed issue before id assignment. -/
structure RawIssue where
  startLine : Nat
  endLine : Nat
  severity : Severity
  message : String
deriving DecidableEq, Repr

/-- An issue as returned by the scan endpoint, with its generated id. -/
structure Issue where
  id : String
  startLine : Nat
  endLine : Nat
  severity : Severity
  message : String
deriving DecidableEq, Repr

/-- The part of a `ReviewOutput` the scan route consumes (with the declared
TypeScript field types: a string explanation and string suggestions). -/
structure ReviewForScan where
  explanation : String
  suggestions : List String

/-- Case-insensitive literal match (the regexes carry the i flag); returns
the remaining input on success. -/
def matchLitCI : List Char → List Char → Option (List Char)
  | [], cs => some cs
  | _ :: _, [] => none
  | p :: ps, c :: cs => if c.toLower = p.toLower then matchLitCI ps cs else none

/-- The regex dot with the i/g flags but no s flag: any character except a
line terminator. The greedy "dot plus" at the end of a pattern: the maximal
nonempty run of such characters. -/
def dotPlusAt (cs : List Char) : Option (List Char) :=
  let m := cs.takeWhile (fun c => !isLineTerm c)
  if m.isEmpty then none else some m

/-- Backtracking for "greedy whitespace-star then dot-plus": try consuming
`consumed` whitespace characters of the run `w` (largest first, as the greedy
engine does), then require a nonempty dot-run. -/
def tryConsumeWs (w rest : List Char) : Nat → Option (List Char)
  | 0 => dotPlusAt (w ++ rest)
  | consumed + 1 =>
    match dotPlusAt (w.drop (consumed + 1) ++ rest) with
    | some m => some m
    | none => tryConsumeWs w rest consumed

/-- Match "whitespace-star then captured dot-plus" at the head of the input,
with the engine's greedy-then-backtrack order. -/
def wsThenDotPlus (cs : List Char) : Option (List Char) :=
  let w := cs.takeWhile isJsWs
  tryConsumeWs w (cs.dropWhile isJsWs) w.length

/-- Match "optional closing bracket, whitespace-star, captured dot-plus":
the engine prefers consuming the bracket and falls back to leaving it for
the dot-run (so a reply ending right after the bracket still matches). -/
def tailMsg : List Char → Option (List Char)
  | ']' :: rest =>
    (match wsThenDotPlus rest with
     | some m => some m
     | none => wsThenDotPlus (']' :: rest))
  | cs => wsThenDotPlus cs

/-- The severity alternation ERROR / WARNING / INFO, case-insensitively, in
the pattern's order; the matched tag is lowercased by the route. -/
def severityAlt (cs : List Char) : Option (Severity × List Char) :=
  match matchLitCI "ERROR".data cs with
  | some rest => some (Severity.error, rest)
  | none =>
    match matchLitCI "WARNING".data cs with
    | some rest => some (Severity.warning, rest)
    | none =>
      match matchLitCI "INFO".data cs with
      | some rest => some (Severity.info, rest)
      | none => none

/-- Match, anchored at the head of the input, the suggestion pattern
"LINE ws* digits (- digits)? : ws* bracket? SEVERITY bracket? ws* message"
(the route's regex with the i flag). The whitespace and digit runs are
deterministic here because each is followed by a disjoint character class;
a dash not followed by digits and a colon cannot be rescued by backtracking,
so those cases fail for this start position. -/
def matchSuggestionAt (cs : List Char) : Option (Nat × Option Nat × Severity × List Char) :=
  match matchLitCI "LINE".data cs with
  | none => none
  | some cs1 =>
    let cs2 := cs1.dropWhile isJsWs
    let d1 := cs2.takeWhile Char.isDigit
    let cs3 := cs2.dropWhile Char.isDigit
    if d1.isEmpty then none
    else
      let afterColon := fun (endL : Option Nat) (cs4 : List Char) =>
        let cs5 := cs4.dropWhile isJsWs
        let cs6 := match cs5 with
          | '[' :: r => r
          | _ => cs5
        match severityAlt cs6 with
        | none => none
        | some (sev, cs7) =>
          match tailMsg cs7 with
          | none => none
          | some msg => some (natOfDigits d1, endL, sev, msg)
      match cs3 with
      | '-' :: cs4 =>
        let d2 := cs4.takeWhile Char.isDigit
        let cs5 := cs4.dropWhile Char.isDigit
        if d2.isEmpty then none
        else
          match cs5 with
          | ':' :: cs6 => afterColon (some (natOfDigits d2)) cs6
          | _ => none
      | ':' :: cs4 => afterColon none cs4
      | _ => none

/-- Leftmost match of the suggestion pattern: try every start position from
the left, as `String.prototype.match` does for an unanchored pattern. -/
def matchSuggestionIn : List Char → Option (Nat × Option Nat × Severity × List Char)
  | [] =>
    match matchSuggestionAt [] with
    | some r => some r
    | none => none
  | c :: rest =>
    match matchSuggestionAt (c :: rest) with
    | some r => some r
    | none => matchSuggestionIn rest

/-- Embedding of the route's suggestion matcher
`suggestion.match(LINE pattern)`, yielding (start line, optional end line,
severity, raw message capture). -/
def matchSuggestion (s : String) : Option (Nat × Option Nat × Severity × String) :=
  (matchSuggestionIn s.data).map (fun r => (r.1, r.2.1, r.2.2.1, String.mk r.2.2.2))

/-- A match of the looser explanation pattern, plus the input remaining
after the match (for the global-flag scan to resume). -/
structure LooseMatch where
  start : Nat
  endL : Option Nat
  msg : List Char

/-- Backtracking for "greedy colon-or-whitespace-plus then captured
non-dot-plus": try consuming `consumed` class characters (largest first, at
least one), then require a nonempty run of non-dot characters. Returns the
captured message and the remaining input. -/
def tryConsumeClass (run rest : List Char) : Nat → Option (List Char × List Char)
  | 0 => none
  | consumed + 1 =>
    let tailcs := run.drop (consumed + 1) ++ rest
    let m := tailcs.takeWhile (fun c => c ≠ '.')
    if m.isEmpty then
      match consumed with
      | 0 => none
      | _ => tryConsumeClass run rest consumed
    else some (m, tailcs.drop m.length)

/-- Match, anchored at the head of the input, the looser explanation pattern
"line ws* digits (ws* - ws* digits)? colon-or-ws+ non-dot-run" (the route's
regex with the i and g flags). The optional dash group is attempted first
and abandoned — as the engine's backtracking does — when its own structure
or the rest of the pattern fails after it. -/
def matchLooseAt (cs : List Char) : Option (LooseMatch × List Char) :=
  match matchLitCI "line".data cs with
  | none => none
  | some cs1 =>
    let cs2 := cs1.dropWhile isJsWs
    let d1 := cs2.takeWhile Char.isDigit
    let cs3 := cs2.dropWhile Char.isDigit
    if d1.isEmpty then none
    else
      let tailCont := fun (csx : List Char) =>
        let run := csx.takeWhile (fun c => c = ':' || isJsWs c)
        let rest := csx.dropWhile (fun c => c = ':' || isJsWs c)
        tryConsumeClass run rest run.length
      let present : Option (Nat × List Char × List Char) :=
        match cs3.dropWhile isJsWs with
        | '-' :: csb =>
          let csc := csb.dropWhile isJsWs
          let d2 := csc.takeWhile Char.isDigit
          let csd := csc.dropWhile Char.isDigit
          if d2.isEmpty then none
          else
            match tailCont csd with
            | some (m, r) => some (natOfDigits d2, m, r)
            | none => none
        | _ => none
      match present with
      | some (e2, m, r) => some (⟨natOfDigits d1, some e2, m⟩, r)
      | none =>
        match tailCont cs3 with
        | some (m, r) => some (⟨natOfDigits d1, none, m⟩, r)
        | none => none

/-- The `matchAll` scan with the global flag: successive leftmost matches,
each search resuming after the previous match's end. `fuel` dominates the
number of scan steps (every step consumes at least one character). -/
def matchAllLooseGo : Nat → List Char → List LooseMatch
  | 0, _ => []
  | fuel + 1, cs =>
    match matchLooseAt cs with
    | some (m, rem) => m :: matchAllLooseGo fuel rem
    | none =>
      match cs with
      | [] => []
      | _ :: t => matchAllLooseGo fuel t

/-- All matches of the looser pattern in the text. -/
def matchAllLoose (s : String) : List LooseMatch :=
  matchAllLooseGo (s.length + 1) s.data

/-- The suggestions loop of the scan route: a suggestion matching the LINE
pattern becomes an issue with its parsed lines, severity and trimmed
message; any other suggestion becomes a generic info issue on line 1
carrying the suggestion text itself. -/
def parseSuggestionIssues (suggestions : List String) : List RawIssue :=
  suggestions.map (fun s =>
    match matchSuggestion s with
    | some r =>
      { startLine := r.1, endLine := (r.2.1).getD r.1, severity := r.2.2.1,
        message := String.mk (jsTrim r.2.2.2.data) }
    | none => { startLine := 1, endLine := 1, severity := Severity.info, message := s })

/-- The explanation fallback of the scan route: every match of the looser
pattern whose start line is positive becomes a warning issue with the
trimmed captured message. -/
def scanExplanationIssues (explanation : String) : List RawIssue :=
  (matchAllLoose explanation).filterMap (fun m =>
    if m.start > 0 then
      some { startLine := m.start, endLine := m.endL.getD m.start,
             severity := Severity.warning, message := String.mk (jsTrim m.msg) }
    else none)

/-- The fixed placeholder issues the route emits when nothing was parsed. -/
def mockIssues : List RawIssue :=
  [ { startLine := 16, endLine := 18, severity := Severity.error,
      message := "Division by zero not handled - Add check for b === 0" },
    { startLine := 21, endLine := 23, severity := Severity.warning,
      message := "Wrong operator: uses + instead of * for multiplication" },
    { startLine := 40, endLine := 42, severity := Severity.info,
      message := "History array never cleared - potential memory leak" } ]

/-- The issue-extraction phase of the scan route: parse the suggestions;
when that produced nothing and the explanation is truthy, scan the
explanation; when still nothing, fall back to the placeholder issues. -/
def extractIssues (r : ReviewForScan) : List RawIssue :=
  let issues1 := parseSuggestionIssues r.suggestions
  let issues2 :=
    if issues1.isEmpty && r.explanation ≠ "" then scanExplanationIssues r.explanation
    else issues1
  if issues2.isEmpty then mockIssues else issues2

/-- The id the route generates for the issue at `index`, with `now` standing
for the `Date.now()` timestamp of the response. -/
def mkIssueId (now index : Nat) : String :=
  "issue-" ++ toString now ++ "-" ++ toString index

/-- The id-assignment map of the route, carrying the running index. -/
def addIds (now : Nat) : Nat → List RawIssue → List Issue
  | _, [] => []
  | i, iss :: rest =>
    { id := mkIssueId now i, startLine := iss.startLine, endLine := iss.endLine,
      severity := iss.severity, message := iss.message } :: addIds now (i + 1) rest

/-- The full issue list the scan route returns for a review it obtained:
extracted (or placeholder) issues, each tagged with a generated id. -/
def extractIssuesWithIds (now : Nat) (r : ReviewForScan) : List Issue :=
  addIds now 0 (extractIssues r)

/-- A string of `n` copies of one character (test shape for the token
estimator's monotonicity property). -/
def repeatChar (c : Char) (n : Nat) : String :=
  String.mk (List.replicate n c)

/-- Whether an `Except` value is a success. -/
def exceptIsOk {ε α : Type} : Except ε α → Bool
  | .ok _ => true
  | .error _ => false

/-- An always-failing test adapter. -/
def svcFailing : AIServiceModel :=
  { provider := "provider-a", model := "model-a", available := true,
    completion := fun _ _ => .error "upstream a failed" }

/-- An always-succeeding test adapter returning a non-JSON reply. -/
def svcSucceeding : AIServiceModel :=
  { provider := "provider-b", model := "model-b", available := true,
    completion := fun _ _ => .ok "all good" }

/-- A fixed test review input. -/
def sampleInput : ReviewInput :=
  { codeContext := "ctx", selectedCode := "sel", language := "ts" }

/-- A test environment with no API key configured. -/
def envNoKey : OpenAIEnv :=
  { OPENAI_API_KEY := none, OPENAI_MODEL := none, AI_PROVIDER := none }

/-- A test environment with an API key configured. -/
def envWithKey : OpenAIEnv :=
  { OPENAI_API_KEY := some "sk-test", OPENAI_MODEL := none, AI_PROVIDER := none }

/-- A test upstream exchange that always fails. -/
def upstreamDown : String → String → Except String String :=
  fun _ _ => .error "net"

/-! ## Theorems -/

theorem countP_replicate (p : Char → Bool) (c : Char) (n : Nat) :
    (List.replicate n c).countP p = if p c then n else 0 := by
  induction n with
  | zero => simp
  | succ k ih =>
    rw [List.replicate_succ, List.countP_cons, ih]
    by_cases h : p c <;> simp [h]

theorem countWordsAux_replicate_inword (c : Char) (h : isJsWs c = false) (n : Nat) :
    countWordsAux (List.replicate n c) true = 0 := by
  induction n with
  | zero => rfl
  | succ k ih => rw [List.replicate_succ]; simp [countWordsAux, h, ih]

theorem countWords_repeatChar (c : Char) (n : Nat) :
    countWords (repeatChar c n) =
      if isJsWs c then 0 else if n = 0 then 0 else 1 := by
  by_cases hws : isJsWs c
  · simp only [hws, if_true]
    show countWordsAux (List.replicate n c) false = 0
    induction n with
    | zero => rfl
    | succ k ih => rw [List.replicate_succ]; simp [countWordsAux, hws, ih]
  · simp only [hws, if_false]
    cases n with
    | zero => rfl
    | succ k =>
      show countWordsAux (List.replicate (k + 1) c) false = 1
      rw [List.replicate_succ]
      simp [countWordsAux, hws, countWordsAux_replicate_inword c (by simp [hws]) k]

theorem countSpecialChars_repeatChar (c : Char) (n : Nat) :
    countSpecialChars (repeatChar c n) =
      if !isAsciiAlnum c && !isJsWs c then n else 0 := by
  show (List.replicate n c).countP _ = _
  rw [countP_replicate]

theorem length_repeatChar (c : Char) (n : Nat) : (repeatChar c n).length = n := by
  show (List.replicate n c).length = n
  simp

/-- C8: `estimateTokenCount` returns 0 on the empty string, is monotonically
non-decreasing in the repetition count for a string of one repeated
character, and is deterministic. -/
theorem estimate_tokens_zero_monotone (c : Char) (n m : Nat) (h : n ≤ m) :
    estimateTokenCount "" = 0 ∧
    estimateTokenCount (repeatChar c n) ≤ estimateTokenCount (repeatChar c m) ∧
    (∀ s t : String, s = t → estimateTokenCount s = estimateTokenCount t) := by
  refine ⟨by decide, ?_, fun s t hst => by rw [hst]⟩
  unfold estimateTokenCount
  apply Nat.div_le_div_right
  rw [countWords_repeatChar, countWords_repeatChar, countSpecialChars_repeatChar,
    countSpecialChars_repeatChar, length_repeatChar, length_repeatChar]
  split_ifs <;> omega

/-- C8 witness: the theorem instantiated at a concrete character and counts. -/
theorem estimate_tokens_zero_monotone_witness :
    2 ≤ 5 ∧
    (estimateTokenCount "" = 0 ∧
     estimateTokenCount (repeatChar 'a' 2) ≤ estimateTokenCount (repeatChar 'a' 5) ∧
     (∀ s t : String, s = t → estimateTokenCount s = estimateTokenCount t)) :=
  ⟨by decide, estimate_tokens_zero_monotone 'a' 2 5 (by decide)⟩

/-- The integer-division form of `estimateTokenCount` agrees with the exact
ceiling the source computes via `Math.ceil`. -/
theorem estimateTokenCount_eq_ceil (text : String) :
    (estimateTokenCount text : ℤ) =
      Int.ceil ((countWords text : ℚ) + (countSpecialChars text : ℚ) / 2 +
        (text.length : ℚ) / 10) := by
  set w := countWords text
  set s := countSpecialChars text
  set l := text.length
  have hq : (w : ℚ) + (s : ℚ) / 2 + (l : ℚ) / 10 = ((10 * w + 5 * s + l : ℕ) : ℚ) / 10 := by
    push_cast
    ring
  rw [hq]
  set N := 10 * w + 5 * s + l with hN
  have hdm := Nat.div_add_mod (N + 9) 10
  have hmlt : (N + 9) % 10 < 10 := Nat.mod_lt _ (by norm_num)
  set k := (N + 9) / 10 with hk
  have h1 : 10 * k ≤ N + 9 := by omega
  have h2 : N + 9 < 10 * k + 10 := by omega
  have hle : ((N : ℚ) / 10) ≤ (k : ℚ) := by
    rw [div_le_iff₀ (by norm_num : (0 : ℚ) < 10)]
    have : (N : ℚ) ≤ 10 * k := by exact_mod_cast (by omega : N ≤ 10 * k)
    linarith
  have hlt : ((k : ℚ) - 1) < (N : ℚ) / 10 := by
    rw [lt_div_iff₀ (by norm_num : (0 : ℚ) < 10)]
    have : (10 : ℚ) * k ≤ (N : ℚ) + 9 := by exact_mod_cast h1
    linarith
  have hceil : Int.ceil ((N : ℚ) / 10) = (k : ℤ) := by
    apply le_antisymm
    · exact Int.ceil_le.mpr (by exact_mod_cast hle)
    · have := Int.lt_ceil.mpr (show ((k : ℤ) - 1 : ℤ) < ((N : ℚ) / 10 : ℚ) from by
        push_cast
        exact hlt)
      omega
  rw [hceil]
  show ((estimateTokenCount text : ℕ) : ℤ) = (k : ℤ)
  exact_mod_cast rfl

/-- C9: with zero available providers, `generateReviewWithFallback` fails
immediately with the "no providers available" error, and no adapter's
`review` is invoked (the invocation trace is empty). -/
theorem fallback_no_providers (input : ReviewInput) :
    generateReviewWithFallback [] input =
      (.error "No AI services available. Please configure at least one provider.", []) :=
  rfl

/-- C3: `parseReviewResponse` is total (never throws), and whenever the
response has no brace-delimited span, or the extracted span is not valid
JSON, it returns the whole raw response as the explanation, no suggestions,
and no diff. -/
theorem parse_fallback_verbatim (s : String)
    (h : extractJsonSpan s = none ∨
      ∃ sp, extractJsonSpan s = some sp ∧ jsonParse sp = none) :
    parseReviewResponse s =
      { explanation := .str s, suggestions := [], diff := none } := by
  unfold parseReviewResponse
  rcases h with h | ⟨sp, h1, h2⟩
  · rw [h]
  · simp only [h1, h2]

/-- C3 witness: a reply with no brace span falls back verbatim. -/
theorem parse_fallback_verbatim_witness :
    (extractJsonSpan "I could not produce a review." = none ∨
      ∃ sp, extractJsonSpan "I could not produce a review." = some sp ∧ jsonParse sp = none) ∧
    parseReviewResponse "I could not produce a review." =
      { explanation := .str "I could not produce a review.", suggestions := [], diff := none } :=
  ⟨Or.inl rfl, parse_fallback_verbatim _ (Or.inl rfl)⟩

theorem addIds_length (now : Nat) : ∀ (i : Nat) (l : List RawIssue),
    (addIds now i l).length = l.length := by
  intro i l
  induction l generalizing i with
  | nil => rfl
  | cons a t ih => simp [addIds, ih]

theorem addIds_get_id (now : Nat) : ∀ (l : List RawIssue) (k i : Nat)
    (h : i < (addIds now k l).length),
    ((addIds now k l).get ⟨i, h⟩).id = mkIssueId now (k + i) := by
  intro l
  induction l with
  | nil => intro k i h; simp [addIds] at h
  | cons a t ih =>
    intro k i h
    cases i with
    | zero => rfl
    | succ j =>
      have := ih (k + 1) j (by simpa [addIds, Nat.succ_lt_succ_iff] using h)
      simpa [addIds, Nat.add_assoc, Nat.add_comm 1 j] using this

theorem extractIssues_ne_nil (r : ReviewForScan) : extractIssues r ≠ [] := by
  unfold extractIssues
  set issues1 := parseSuggestionIssues r.suggestions with h1
  by_cases hc : (issues1.isEmpty && decide (r.explanation ≠ "")) = true
  · simp only [hc, if_true]
    by_cases hs : (scanExplanationIssues r.explanation).isEmpty
    · simp [hs]
      decide
    · simp [hs]
      exact fun hh => by simp [hh] at hs
  · simp only [Bool.not_eq_true] at hc
    simp only [hc, Bool.false_eq_true, if_false]
    by_cases hs : issues1.isEmpty
    · simp [hs]
      decide
    · simp [hs]
      exact fun hh => by simp [hh] at hs

/-- C5: for every review the scan route obtained and every timestamp, the
returned issues list is non-empty; when neither the suggestions nor the
explanation yielded an issue the fixed placeholder issues are emitted; and
the issue at each index carries the generated id for that index and
timestamp. -/
theorem scan_issues_nonempty_with_ids (r : ReviewForScan) (now : Nat) :
    extractIssuesWithIds now r ≠ [] ∧
    (r.suggestions = [] →
      (r.explanation = "" ∨ scanExplanationIssues r.explanation = []) →
      extractIssues r = mockIssues) ∧
    (∀ i (h : i < (extractIssuesWithIds now r).length),
      ((extractIssuesWithIds now r).get ⟨i, h⟩).id = mkIssueId now i) := by
  refine ⟨?_, ?_, ?_⟩
  · unfold extractIssuesWithIds
    intro hh
    have := addIds_length now 0 (extractIssues r)
    rw [hh] at this
    exact extractIssues_ne_nil r (List.length_eq_zero.mp this.symm)
  · intro hs hx
    unfold extractIssues
    have h1 : parseSuggestionIssues r.suggestions = [] := by rw [hs]; rfl
    rcases hx with hx | hx
    · simp [h1, hx]
    · by_cases hx0 : r.explanation = ""
      · simp [h1, hx0]
      · simp [h1, hx, hx0]
  · intro i h
    have := addIds_get_id now (extractIssues r) 0 i (by simpa [extractIssuesWithIds] using h)
    simpa [extractIssuesWithIds] using this

/-- C5 witness: the theorem instantiated at the empty review and a concrete
timestamp; nothing parses, the placeholders are returned, with ids. -/
theorem scan_issues_nonempty_with_ids_witness :
    extractIssuesWithIds 7 ⟨"", []⟩ ≠ [] ∧
    ((⟨"", []⟩ : ReviewForScan).suggestions = [] ∧
      ((⟨"", []⟩ : ReviewForScan).explanation = "" ∨
        scanExplanationIssues (⟨"", []⟩ : ReviewForScan).explanation = []) ∧
      extractIssues ⟨"", []⟩ = mockIssues) ∧
    (0 < (extractIssuesWithIds 7 ⟨"", []⟩).length ∧
      ((extractIssuesWithIds 7 ⟨"", []⟩).get ⟨0, by decide⟩).id = mkIssueId 7 0) :=
  ⟨(scan_issues_nonempty_with_ids ⟨"", []⟩ 7).1,
   ⟨rfl, Or.inl rfl, (scan_issues_nonempty_with_ids ⟨"", []⟩ 7).2.1 rfl (Or.inl rfl)⟩,
   ⟨by decide, (scan_issues_nonempty_with_ids ⟨"", []⟩ 7).2.2 0 (by decide)⟩⟩

/-- C4 counterexample: the claim says that when the suggestions list is
non-empty but no suggestion matches the LINE pattern, the route falls back
to scanning the explanation (emitting warning issues). On this input no
suggestion matches and the explanation does contain a loose-pattern match
that would yield a warning issue, yet the route returns one generic info
issue per suggestion and never consults the explanation. -/
theorem scan_no_explanation_fallback_counterexample :
    matchSuggestion "nothing here" = none ∧
    scanExplanationIssues "line 3: bad thing" =
      [{ startLine := 3, endLine := 3, severity := Severity.warning, message := "bad thing" }] ∧
    extractIssues { explanation := "line 3: bad thing", suggestions := ["nothing here"] } =
      [{ startLine := 1, endLine := 1, severity := Severity.info, message := "nothing here" }] :=
  ⟨rfl, rfl, rfl⟩

/-- C4 (amended): in the scan path, when the suggestions list is non-empty
but no suggestion matches the LINE pattern, each suggestion is emitted as a
generic issue (lines 1-1, severity info, message the suggestion itself); the
looser explanation scan runs only when the suggestions list is empty and the
explanation is truthy. -/
theorem scan_unmatched_suggestions_amended (expl : String) (suggestions : List String) :
    (suggestions ≠ [] → (∀ s ∈ suggestions, matchSuggestion s = none) →
      extractIssues { explanation := expl, suggestions := suggestions } =
        suggestions.map (fun s =>
          { startLine := 1, endLine := 1, severity := Severity.info, message := s })) ∧
    (suggestions = [] → expl ≠ "" → scanExplanationIssues expl ≠ [] →
      extractIssues { explanation := expl, suggestions := suggestions } =
        scanExplanationIssues expl) := by
  constructor
  · intro hne hall
    have hmap : parseSuggestionIssues suggestions =
        suggestions.map (fun s =>
          { startLine := 1, endLine := 1, severity := Severity.info, message := s }) := by
      unfold parseSuggestionIssues
      exact List.map_congr_left (fun s hs => by rw [hall s hs])
    have hne2 : parseSuggestionIssues suggestions ≠ [] := by
      rw [hmap]
      simpa using hne
    unfold extractIssues
    have hie : (parseSuggestionIssues suggestions).isEmpty = false := by
      simpa [List.isEmpty_iff] using hne2
    simp [hie, hmap, hne]
  · intro hs hx hscan
    unfold extractIssues
    have h1 : parseSuggestionIssues suggestions = [] := by rw [hs]; rfl
    simp [h1, hx, hscan, List.isEmpty_iff]

/-- C4 witness: the amended theorem instantiated at a one-element
non-matching suggestions list. -/
theorem scan_unmatched_suggestions_amended_witness :
    (["nothing here"] ≠ ([] : List String) ∧
      (∀ s ∈ ["nothing here"], matchSuggestion s = none)) ∧
    extractIssues { explanation := "x", suggestions := ["nothing here"] } =
      ["nothing here"].map (fun s =>
        { startLine := 1, endLine := 1, severity := Severity.info, message := s }) :=
  ⟨⟨by simp, fun s hs => by rw [List.mem_singleton] at hs; rw [hs]; exact rfl⟩,
   (scan_unmatched_suggestions_amended "x" ["nothing here"]).1 (by simp)
     (fun s hs => by rw [List.mem_singleton] at hs; rw [hs]; exact rfl)⟩

theorem sliceContext_selectedCode_eq (file : String) (selS selE : Nat)
    (cfg : ContextSlicerConfig) :
    (sliceContext file selS selE cfg).selectedCode =
      String.mk ((charTruncate
        (joinLines (jsSlice ((computeWindow (splitLines file.data).length selS selE cfg).1 - 1)
          (selS - 1) (splitLines file.data)))
        (joinLines (jsSlice (selS - 1) selE (splitLines file.data)))
        (joinLines (jsSlice selE ((computeWindow (splitLines file.data).length selS selE cfg).2.1)
          (splitLines file.data)))
        cfg.maxCharacters).2.1) :=
  rfl

theorem sliceContext_beforeContext_eq (file : String) (selS selE : Nat)
    (cfg : ContextSlicerConfig) :
    (sliceContext file selS selE cfg).beforeContext =
      String.mk ((charTruncate
        (joinLines (jsSlice ((computeWindow (splitLines file.data).length selS selE cfg).1 - 1)
          (selS - 1) (splitLines file.data)))
        (joinLines (jsSlice (selS - 1) selE (splitLines file.data)))
        (joinLines (jsSlice selE ((computeWindow (splitLines file.data).length selS selE cfg).2.1)
          (splitLines file.data)))
        cfg.maxCharacters).1) :=
  rfl

theorem sliceContext_afterContext_eq (file : String) (selS selE : Nat)
    (cfg : ContextSlicerConfig) :
    (sliceContext file selS selE cfg).afterContext =
      String.mk ((charTruncate
        (joinLines (jsSlice ((computeWindow (splitLines file.data).length selS selE cfg).1 - 1)
          (selS - 1) (splitLines file.data)))
        (joinLines (jsSlice (selS - 1) selE (splitLines file.data)))
        (joinLines (jsSlice selE ((computeWindow (splitLines file.data).length selS selE cfg).2.1)
          (splitLines file.data)))
        cfg.maxCharacters).2.2.1) :=
  rfl

theorem sliceContext_contextLines_eq (file : String) (selS selE : Nat)
    (cfg : ContextSlicerConfig) :
    (sliceContext file selS selE cfg).contextStartLine =
        (computeWindow (splitLines file.data).length selS selE cfg).1 ∧
    (sliceContext file selS selE cfg).contextEndLine =
        (computeWindow (splitLines file.data).length selS selE cfg).2.1 :=
  ⟨rfl, rfl⟩

theorem charTruncate_sel_of_lt (before sel after : List Char) (maxChars : Nat)
    (h : sel.length < maxChars) :
    (charTruncate before sel after maxChars).2.1 = sel := by
  simp only [charTruncate]
  split_ifs <;> first | rfl | (exfalso; omega)

theorem charTruncate_of_total_le (before sel after : List Char) (maxChars : Nat)
    (h : before.length + sel.length + after.length ≤ maxChars) :
    charTruncate before sel after maxChars = (before, sel, after, false) := by
  unfold charTruncate
  rw [if_neg (by omega)]

theorem charTruncate_of_sel_ge (before sel after : List Char) (maxChars : Nat)
    (h1 : maxChars ≤ sel.length)
    (h2 : before.length + sel.length + after.length > maxChars) :
    charTruncate before sel after maxChars =
      ([], sel.take maxChars ++ "\n... (truncated)".data, [], true) := by
  unfold charTruncate
  rw [if_pos h2, if_neg (by omega)]

/-- C2 counterexample: with the selection "cd" of length exactly equal to the
character budget 2 (so the selection does not EXCEED the budget) and nonempty
surrounding context, `sliceContext` still truncates and marks the selection
and drops the context, contradicting the claim that the selection is
returned verbatim whenever it does not exceed the budget. -/
theorem slice_selection_equal_budget_counterexample :
    selectedText "ab\ncd\nef" 2 2 = "cd" ∧
    ¬ ((selectedText "ab\ncd\nef" 2 2).length > 2) ∧
    (sliceContext "ab\ncd\nef" 2 2
        { linesBefore := 20, linesAfter := 20, maxTotalLines := 100, maxCharacters := 2 }
      ).selectedCode = "cd\n... (truncated)" ∧
    (sliceContext "ab\ncd\nef" 2 2
        { linesBefore := 20, linesAfter := 20, maxTotalLines := 100, maxCharacters := 2 }
      ).selectedCode ≠ "cd" := by
  refine ⟨rfl, by decide, rfl, by decide⟩

/-- C2 (amended): `sliceContext` returns `selectedCode` verbatim equal to the
joined selected lines whenever the selection is strictly under the character
budget, or the whole window fits the budget; when the window exceeds the
budget and the selection's length is at least (not only strictly above) the
budget, the selection is cut to the budget, a truncation marker is appended,
and both contexts are returned empty. -/
theorem slice_selection_verbatim_amended (file : String) (selS selE : Nat)
    (cfg : ContextSlicerConfig) :
    ((selectedText file selS selE).length < cfg.maxCharacters →
      (sliceContext file selS selE cfg).selectedCode = selectedText file selS selE) ∧
    (windowCharCount file selS selE cfg ≤ cfg.maxCharacters →
      (sliceContext file selS selE cfg).selectedCode = selectedText file selS selE) ∧
    (cfg.maxCharacters ≤ (selectedText file selS selE).length →
      windowCharCount file selS selE cfg > cfg.maxCharacters →
      (sliceContext file selS selE cfg).selectedCode =
        String.mk ((selectedText file selS selE).data.take cfg.maxCharacters ++
          "\n... (truncated)".data) ∧
      (sliceContext file selS selE cfg).beforeContext = "" ∧
      (sliceContext file selS selE cfg).afterContext = "") := by
  have hlen : (selectedText file selS selE).length =
      (joinLines (jsSlice (selS - 1) selE (splitLines file.data))).length := rfl
  have hdata : (selectedText file selS selE).data =
      joinLines (jsSlice (selS - 1) selE (splitLines file.data)) := rfl
  have hwc : windowCharCount file selS selE cfg =
      (joinLines (jsSlice ((computeWindow (splitLines file.data).length selS selE cfg).1 - 1)
        (selS - 1) (splitLines file.data))).length +
      (joinLines (jsSlice (selS - 1) selE (splitLines file.data))).length +
      (joinLines (jsSlice selE ((computeWindow (splitLines file.data).length selS selE cfg).2.1)
        (splitLines file.data))).length := rfl
  refine ⟨?_, ?_, ?_⟩
  · intro h
    rw [hlen] at h
    exact (sliceContext_selectedCode_eq file selS selE cfg).trans
      (congrArg String.mk (charTruncate_sel_of_lt _ _ _ _ h))
  · intro h
    rw [hwc] at h
    exact (sliceContext_selectedCode_eq file selS selE cfg).trans
      (congrArg (fun t => String.mk t.2.1) (charTruncate_of_total_le _ _ _ _ h))
  · intro h1 h2
    rw [hlen] at h1
    rw [hwc] at h2
    refine ⟨?_, ?_, ?_⟩
    · exact (sliceContext_selectedCode_eq file selS selE cfg).trans
        (congrArg (fun t => String.mk t.2.1) (charTruncate_of_sel_ge _ _ _ _ h1 h2))
    · exact (sliceContext_beforeContext_eq file selS selE cfg).trans
        (congrArg (fun t => String.mk t.1) (charTruncate_of_sel_ge _ _ _ _ h1 h2))
    · exact (sliceContext_afterContext_eq file selS selE cfg).trans
        (congrArg (fun t => String.mk t.2.2.1) (charTruncate_of_sel_ge _ _ _ _ h1 h2))

/-- C2 witness: the amended theorem's truncation branch at the
counterexample input. -/
theorem slice_selection_verbatim_amended_witness :
    (2 ≤ (selectedText "ab\ncd\nef" 2 2).length ∧
      windowCharCount "ab\ncd\nef" 2 2
        { linesBefore := 20, linesAfter := 20, maxTotalLines := 100, maxCharacters := 2 } > 2) ∧
    ((sliceContext "ab\ncd\nef" 2 2
        { linesBefore := 20, linesAfter := 20, maxTotalLines := 100, maxCharacters := 2 }
      ).selectedCode =
        String.mk ((selectedText "ab\ncd\nef" 2 2).data.take 2 ++ "\n... (truncated)".data) ∧
      (sliceContext "ab\ncd\nef" 2 2
        { linesBefore := 20, linesAfter := 20, maxTotalLines := 100, maxCharacters := 2 }
      ).beforeContext = "" ∧
      (sliceContext "ab\ncd\nef" 2 2
        { linesBefore := 20, linesAfter := 20, maxTotalLines := 100, maxCharacters := 2 }
      ).afterContext = "") :=
  ⟨⟨by decide, by decide⟩,
   (slice_selection_verbatim_amended "ab\ncd\nef" 2 2
     { linesBefore := 20, linesAfter := 20, maxTotalLines := 100, maxCharacters := 2 }).2.2
     (by decide) (by decide)⟩

/-- C7: whenever the naive clamped window around the selection has more lines
than `maxTotalLines`, the window `sliceContext` reports is recentered with at
most `maxTotalLines` lines and stays clamped to the file's line bounds. -/
theorem slice_window_bounded (file : String) (selS selE : Nat)
    (cfg : ContextSlicerConfig)
    (h : (((min (splitLines file.data).length (selE + cfg.linesAfter) : Nat) : Int) -
          (((max 1 (selS - cfg.linesBefore) : Nat)) : Int) + 1) > (cfg.maxTotalLines : Int)) :
    (((sliceContext file selS selE cfg).contextEndLine : Int) -
        ((sliceContext file selS selE cfg).contextStartLine : Int) + 1
      ≤ (cfg.maxTotalLines : Int)) ∧
    1 ≤ (sliceContext file selS selE cfg).contextStartLine ∧
    (sliceContext file selS selE cfg).contextEndLine ≤ (splitLines file.data).length := by
  obtain ⟨hs, he⟩ := sliceContext_contextLines_eq file selS selE cfg
  rw [hs, he]
  have hw : computeWindow (splitLines file.data).length selS selE cfg =
      (max 1 ((selS + selE) / 2 - cfg.maxTotalLines / 2),
       min (splitLines file.data).length
         (max 1 ((selS + selE) / 2 - cfg.maxTotalLines / 2) + cfg.maxTotalLines - 1),
       true) := by
    simp only [computeWindow]
    rw [if_pos h]
  rw [hw]
  dsimp only
  refine ⟨?_, le_max_left 1 _, min_le_left _ _⟩
  have h1 : 1 ≤ max 1 ((selS + selE) / 2 - cfg.maxTotalLines / 2) := le_max_left 1 _
  have h2 : min (splitLines file.data).length
      (max 1 ((selS + selE) / 2 - cfg.maxTotalLines / 2) + cfg.maxTotalLines - 1)
      ≤ max 1 ((selS + selE) / 2 - cfg.maxTotalLines / 2) + cfg.maxTotalLines - 1 :=
    min_le_right _ _
  omega

/-- C7 witness: a five-line file with a tight three-line window budget. -/
theorem slice_window_bounded_witness :
    ((((min (splitLines ("a\nb\nc\nd\ne" : String).data).length (3 + 2) : Nat) : Int) -
        (((max 1 (3 - 2) : Nat)) : Int) + 1) > ((3 : Nat) : Int)) ∧
    ((((sliceContext "a\nb\nc\nd\ne" 3 3
          { linesBefore := 2, linesAfter := 2, maxTotalLines := 3, maxCharacters := 100 }
        ).contextEndLine : Int) -
        (((sliceContext "a\nb\nc\nd\ne" 3 3
          { linesBefore := 2, linesAfter := 2, maxTotalLines := 3, maxCharacters := 100 }
        ).contextStartLine : Int)) + 1
       ≤ ((3 : Nat) : Int)) ∧
      1 ≤ (sliceContext "a\nb\nc\nd\ne" 3 3
          { linesBefore := 2, linesAfter := 2, maxTotalLines := 3, maxCharacters := 100 }
        ).contextStartLine ∧
      (sliceContext "a\nb\nc\nd\ne" 3 3
          { linesBefore := 2, linesAfter := 2, maxTotalLines := 3, maxCharacters := 100 }
        ).contextEndLine ≤ (splitLines ("a\nb\nc\nd\ne" : String).data).length) :=
  ⟨by decide,
   slice_window_bounded "a\nb\nc\nd\ne" 3 3
     { linesBefore := 2, linesAfter := 2, maxTotalLines := 3, maxCharacters := 100 }
     (by decide)⟩

theorem review_ok_tags (svc : AIServiceModel) (input : ReviewInput)
    (out : ReviewOutput) (h : review svc input = .ok out) :
    out.provider = svc.provider ∧ out.model = svc.model := by
  unfold review at h
  by_cases hav : svc.available
  · rw [hav] at h
    simp only [Bool.not_true, Bool.false_eq_true, if_false] at h
    cases hc : svc.completion getSystemPrompt (buildReviewPrompt input) with
    | error e => rw [hc] at h; cases h
    | ok raw =>
      rw [hc] at h
      cases h
      exact ⟨rfl, rfl⟩
  · rw [Bool.not_eq_true] at hav
    rw [hav] at h
    simp only [Bool.not_false, if_true] at h
    cases h

theorem runFallback_first_ok (input : ReviewInput) :
    ∀ (pre : List AIServiceModel) (svc : AIServiceModel) (post : List AIServiceModel)
      (out : ReviewOutput) (acc : Option String),
      (∀ p ∈ pre, exceptIsOk (review p input) = false) →
      review svc input = .ok out →
      runFallback input (pre ++ svc :: post) acc =
        (.ok out, pre.map (fun p => p.provider) ++ [svc.provider]) := by
  intro pre
  induction pre with
  | nil =>
    intro svc post out acc _ hok
    simp only [List.nil_append, runFallback, hok, List.map_nil]
  | cons p pre' ih =>
    intro svc post out acc hall hok
    have hp : exceptIsOk (review p input) = false := hall p (List.mem_cons_self p _)
    cases hrev : review p input with
    | ok o => rw [hrev] at hp; cases hp
    | error e =>
      show runFallback input (p :: (pre' ++ svc :: post)) acc = _
      rw [runFallback]
      simp only [hrev]
      rw [ih svc post out (some e) (fun q hq => hall q (List.mem_cons_of_mem p hq)) hok]
      rfl

theorem runFallback_all_err (input : ReviewInput) :
    ∀ (l : List AIServiceModel) (hne : l ≠ []) (acc : Option String) (e : String),
      (∀ p ∈ l, exceptIsOk (review p input) = false) →
      review (l.getLast hne) input = .error e →
      runFallback input l acc = (.error e, l.map (fun p => p.provider)) := by
  intro l
  induction l with
  | nil => intro hne; exact absurd rfl hne
  | cons s rest ih =>
    intro hne acc e hall hlast
    cases rest with
    | nil =>
      have hs : review s input = .error e := hlast
      simp only [runFallback, hs, List.map_cons, List.map_nil]
      rfl
    | cons r t =>
      have hs : exceptIsOk (review s input) = false := hall s (List.mem_cons_self s _)
      cases hrev : review s input with
      | ok o => rw [hrev] at hs; cases hs
      | error e1 =>
        have hlast' : review ((r :: t).getLast (List.cons_ne_nil r t)) input = .error e := by
          rw [← List.getLast_cons (List.cons_ne_nil r t)]
          exact hlast
        have hrec := ih (List.cons_ne_nil r t) (some e1) e
          (fun q hq => hall q (List.mem_cons_of_mem s hq)) hlast'
        show runFallback input (s :: (r :: t)) acc = _
        rw [runFallback]
        simp only [hrev]
        rw [hrec]
        rfl

/-- C1: for every non-empty ordered list of available providers,
`generateReviewWithFallback` attempts `review` on each provider in order,
stopping at the first success: when the providers before `svc` all fail and
`svc` succeeds, the result is `svc`'s output, tagged with `svc`'s provider
and model, and exactly the providers up to and including `svc` are invoked
once each in order; when every provider fails, the raised error is the one
observed from the LAST provider, and every provider is invoked once in
order. -/
theorem fallback_order_and_last_error (services : List AIServiceModel)
    (input : ReviewInput) (hne : services ≠ []) :
    (∀ (pre : List AIServiceModel) (svc : AIServiceModel) (post : List AIServiceModel)
       (out : ReviewOutput),
      services = pre ++ svc :: post →
      (∀ p ∈ pre, exceptIsOk (review p input) = false) →
      review svc input = .ok out →
      generateReviewWithFallback services input =
        (.ok out, pre.map (fun p => p.provider) ++ [svc.provider]) ∧
      out.provider = svc.provider ∧ out.model = svc.model) ∧
    (∀ e : String,
      (∀ p ∈ services, exceptIsOk (review p input) = false) →
      review (services.getLast hne) input = .error e →
      generateReviewWithFallback services input =
        (.error e, services.map (fun p => p.provider))) := by
  have hrun : generateReviewWithFallback services input = runFallback input services none := by
    cases services with
    | nil => exact absurd rfl hne
    | cons a t => rfl
  constructor
  · intro pre svc post out hsplit hall hok
    refine ⟨?_, review_ok_tags svc input out hok⟩
    rw [hrun, hsplit]
    exact runFallback_first_ok input pre svc post out none hall hok
  · intro e hall hlast
    rw [hrun]
    exact runFallback_all_err input services hne none e hall hlast

/-- C1 witness: the theorem instantiated at the two-element list, first
provider failing and second succeeding, with both conclusions available. -/
theorem fallback_order_and_last_error_witness :
    ([svcFailing, svcSucceeding] ≠ []) ∧
    ((∀ (pre : List AIServiceModel) (svc : AIServiceModel) (post : List AIServiceModel)
       (out : ReviewOutput),
      [svcFailing, svcSucceeding] = pre ++ svc :: post →
      (∀ p ∈ pre, exceptIsOk (review p sampleInput) = false) →
      review svc sampleInput = .ok out →
      generateReviewWithFallback [svcFailing, svcSucceeding] sampleInput =
        (.ok out, pre.map (fun p => p.provider) ++ [svc.provider]) ∧
      out.provider = svc.provider ∧ out.model = svc.model) ∧
    (∀ e : String,
      (∀ p ∈ [svcFailing, svcSucceeding], exceptIsOk (review p sampleInput) = false) →
      review ([svcFailing, svcSucceeding].getLast (List.cons_ne_nil _ _)) sampleInput = .error e →
      generateReviewWithFallback [svcFailing, svcSucceeding] sampleInput =
        (.error e, [svcFailing, svcSucceeding].map (fun p => p.provider)))) :=
  ⟨List.cons_ne_nil _ _,
   fallback_order_and_last_error [svcFailing, svcSucceeding] sampleInput (List.cons_ne_nil _ _)⟩

/-- C6 counterexample: this reply is a well-formed JSON object whose
`explanation` is a string (the empty string) and whose `suggestions` is an
array, yet `parseReviewResponse` does not round-trip the explanation: the
JavaScript logical-or treats the empty string as falsy and substitutes the
placeholder text. -/
theorem parse_roundtrip_empty_explanation_counterexample :
    jsonParse "\x7b\"explanation\":\"\",\"suggestions\":[]\x7d" =
      some (.obj [("explanation", .str ""), ("suggestions", .arr [])]) ∧
    extractJsonSpan "\x7b\"explanation\":\"\",\"suggestions\":[]\x7d" =
      some "\x7b\"explanation\":\"\",\"suggestions\":[]\x7d" ∧
    parseReviewResponse "\x7b\"explanation\":\"\",\"suggestions\":[]\x7d" =
      { explanation := .str "No explanation provided.", suggestions := [],
        diff := none } :=
  ⟨rfl, rfl, rfl⟩

/-- C6 (amended): a reply whose extracted brace span parses as a JSON object
with a truthy (non-empty) string `explanation` and an array `suggestions`
round-trips those fields exactly, with `diff` round-tripped when it is a
truthy (non-empty) string and absent when missing; the extracted span is the
embedded object itself whenever the surrounding prose has no brace-open
before it and no brace-close after it; and a reply with no brace span
becomes the verbatim explanation with empty suggestions. -/
theorem parse_roundtrip_amended :
    (∀ (reply sp : String) (fields : List (String × Json)) (e : String) (xs : List Json),
      extractJsonSpan reply = some sp →
      jsonParse sp = some (.obj fields) →
      jsGetField (.obj fields) "explanation" = some (.str e) →
      e ≠ "" →
      jsGetField (.obj fields) "suggestions" = some (.arr xs) →
      ((∀ d : String, jsGetField (.obj fields) "diff" = some (.str d) → d ≠ "" →
          parseReviewResponse reply =
            { explanation := .str e, suggestions := xs, diff := some (.str d) }) ∧
       (jsGetField (.obj fields) "diff" = none →
          parseReviewResponse reply =
            { explanation := .str e, suggestions := xs, diff := none }))) ∧
    (∀ (p t q : List Char),
      (∀ c ∈ p, c ≠ '{') → (∀ c ∈ q, c ≠ '}') →
      t.head? = some '{' → t.getLast? = some '}' →
      extractJsonSpan (String.mk (p ++ t ++ q)) = some (String.mk t)) ∧
    (∀ s : String, extractJsonSpan s = none →
      parseReviewResponse s =
        { explanation := .str s, suggestions := [], diff := none }) := by
  refine ⟨?_, ?_, ?_⟩
  · intro reply sp fields e xs hspan hparse hexp he hsugg
    constructor
    · intro d hdiff hd
      simp only [parseReviewResponse, hspan, hparse, hexp, hsugg, hdiff]
      simp [jsTruthy, he, hd]
    · intro hdiff
      simp only [parseReviewResponse, hspan, hparse, hexp, hsugg, hdiff]
      simp [jsTruthy, he]
  · intro p t q hp hq hhead hlast
    have htne : t ≠ [] := by
      intro hh
      rw [hh] at hhead
      cases hhead
    have htlen2 : 2 ≤ t.length := by
      cases t with
      | nil => exact absurd rfl htne
      | cons c t' =>
        cases t' with
        | nil =>
          simp only [List.head?_cons, Option.some.injEq] at hhead
          have hl : (some c : Option Char) = some '}' := hlast
          rw [hhead] at hl
          cases hl
        | cons c2 t'' => simp [List.length_cons]
    have hfp : p.findIdx? (fun c => c = '{') = none := by
      rw [List.findIdx?_eq_none_iff]
      intro x hx
      simpa using hp x hx
    have hfq : q.reverse.findIdx? (fun c => c = '}') = none := by
      rw [List.findIdx?_eq_none_iff]
      intro x hx
      simpa using hq x (List.mem_reverse.mp hx)
    have hft : t.findIdx? (fun c => c = '{') = some 0 := by
      cases t with
      | nil => exact absurd rfl htne
      | cons c t' =>
        simp only [List.head?_cons, Option.some.injEq] at hhead
        simp [List.findIdx?_cons, hhead]
    have hftr : t.reverse.findIdx? (fun c => c = '}') = some 0 := by
      have : t.reverse.head? = some '}' := by
        rw [← List.getLast?_eq_head?_reverse]
        exact hlast
      cases hrev : t.reverse with
      | nil =>
        rw [hrev] at this
        cases this
      | cons c t' =>
        rw [hrev] at this
        simp only [List.head?_cons, Option.some.injEq] at this
        simp [List.findIdx?_cons, this]
    have hfirst : firstIdx (fun c => c = '{') (p ++ t ++ q) = some p.length := by
      unfold firstIdx
      rw [List.append_assoc, List.findIdx?_append, hfp]
      rw [List.findIdx?_append, hft]
      simp
    have hlastIdx : lastIdx (fun c => c = '}') (p ++ t ++ q) = some (p.length + t.length - 1) := by
      unfold lastIdx
      rw [List.reverse_append, List.reverse_append, List.findIdx?_append, hfq]
      rw [List.findIdx?_append, hftr]
      simp only [Option.or_none, Option.none_or, Option.map_map, Option.map_some']
      simp only [List.length_append, List.length_reverse, Function.comp_apply]
      simp only [Option.or_some, Option.map_some', Function.comp_apply]
      congr 1
      omega
    show extractJsonSpan (String.mk (p ++ t ++ q)) = some (String.mk t)
    unfold extractJsonSpan
    have hdata : (String.mk (p ++ t ++ q)).data = p ++ t ++ q := rfl
    rw [hdata, hfirst, hlastIdx]
    show (if p.length < p.length + t.length - 1 then
        some (String.mk (((p ++ t ++ q).drop p.length).take (p.length + t.length - 1 - p.length + 1)))
      else none) = some (String.mk t)
    rw [if_pos (show p.length < p.length + t.length - 1 by omega)]
    have hdrop : (p ++ t ++ q).drop p.length = t ++ q := by
      rw [List.append_assoc]
      exact List.drop_left p (t ++ q)
    have htake : (t ++ q).take t.length = t := List.take_left t q
    have harith : p.length + t.length - 1 - p.length + 1 = t.length := by omega
    rw [hdrop, harith, htake]
  · intro s hnone
    unfold parseReviewResponse
    rw [hnone]

/-- C6 witness: the amended theorem at a JSON object embedded in prose, with
non-empty explanation, one suggestion, and no diff. -/
theorem parse_roundtrip_amended_witness :
    extractJsonSpan "Result: \x7b\"explanation\":\"good\",\"suggestions\":[\"s1\"]\x7d thanks" =
      some "\x7b\"explanation\":\"good\",\"suggestions\":[\"s1\"]\x7d" ∧
    jsonParse "\x7b\"explanation\":\"good\",\"suggestions\":[\"s1\"]\x7d" =
      some (.obj [("explanation", .str "good"), ("suggestions", .arr [.str "s1"])]) ∧
    jsGetField (.obj [("explanation", .str "good"), ("suggestions", .arr [.str "s1"])])
      "explanation" = some (.str "good") ∧
    ("good" : String) ≠ "" ∧
    jsGetField (.obj [("explanation", .str "good"), ("suggestions", .arr [.str "s1"])])
      "suggestions" = some (.arr [.str "s1"]) ∧
    jsGetField (.obj [("explanation", .str "good"), ("suggestions", .arr [.str "s1"])])
      "diff" = none ∧
    parseReviewResponse "Result: \x7b\"explanation\":\"good\",\"suggestions\":[\"s1\"]\x7d thanks" =
      { explanation := .str "good", suggestions := [.str "s1"], diff := none } :=
  ⟨rfl, rfl, rfl, by decide, rfl, rfl,
   (parse_roundtrip_amended.1
     "Result: \x7b\"explanation\":\"good\",\"suggestions\":[\"s1\"]\x7d thanks"
     "\x7b\"explanation\":\"good\",\"suggestions\":[\"s1\"]\x7d"
     [("explanation", .str "good"), ("suggestions", .arr [.str "s1"])]
     "good" [.str "s1"] rfl rfl rfl (by decide) rfl).2 rfl⟩

/-- C10: a provider constructed while its credential is absent (falsy) is
cached unavailable; later `getService` and `getAvailableServices` calls
return the same frozen instance, with availability still false and the
provider excluded, whatever the environment now holds — until the instance
cache is cleared, after which a construction under a truthy credential is
available and listed. -/
theorem registry_availability_frozen (env1 env2 : OpenAIEnv)
    (up1 up2 : String → String → Except String String)
    (h1 : truthyStr env1.OPENAI_API_KEY = none)
    (h2 : (truthyStr env2.OPENAI_API_KEY).isSome = true) :
    (mkOpenAIService env1 up1).available = false ∧
    getService env1 up1 (some "openai") none =
      .ok (mkOpenAIService env1 up1, some (mkOpenAIService env1 up1)) ∧
    getService env2 up2 (some "openai") (some (mkOpenAIService env1 up1)) =
      .ok (mkOpenAIService env1 up1, some (mkOpenAIService env1 up1)) ∧
    getAvailableServices env2 up2 (some (mkOpenAIService env1 up1)) =
      ([], some (mkOpenAIService env1 up1)) ∧
    (mkOpenAIService env2 up2).available = true ∧
    getAvailableServices env2 up2 clearInstances =
      ([mkOpenAIService env2 up2], some (mkOpenAIService env2 up2)) := by
  have hav1 : (mkOpenAIService env1 up1).available = false := by
    unfold mkOpenAIService
    simp [h1]
  have hav2 : (mkOpenAIService env2 up2).available = true := by
    unfold mkOpenAIService
    simpa using h2
  refine ⟨hav1, rfl, rfl, ?_, hav2, ?_⟩
  · unfold getAvailableServices
    simp only [getService]
    rw [if_pos (show (truthyStr (some "openai")).getD
      ((truthyStr env2.AI_PROVIDER).getD "openai") = "openai" from rfl)]
    simp [hav1]
  · unfold getAvailableServices clearInstances
    simp only [getService]
    rw [if_pos (show (truthyStr (some "openai")).getD
      ((truthyStr env2.AI_PROVIDER).getD "openai") = "openai" from rfl)]
    simp [hav2]

/-- C10 witness: the theorem at a concrete pair of environments, first
without and then with an API key. -/
theorem registry_availability_frozen_witness :
    (truthyStr envNoKey.OPENAI_API_KEY = none ∧
      (truthyStr envWithKey.OPENAI_API_KEY).isSome = true) ∧
    ((mkOpenAIService envNoKey upstreamDown).available = false ∧
      getService envNoKey upstreamDown (some "openai") none =
        .ok (mkOpenAIService envNoKey upstreamDown,
             some (mkOpenAIService envNoKey upstreamDown)) ∧
      getService envWithKey upstreamDown (some "openai")
          (some (mkOpenAIService envNoKey upstreamDown)) =
        .ok (mkOpenAIService envNoKey upstreamDown,
             some (mkOpenAIService envNoKey upstreamDown)) ∧
      getAvailableServices envWithKey upstreamDown
          (some (mkOpenAIService envNoKey upstreamDown)) =
        ([], some (mkOpenAIService envNoKey upstreamDown)) ∧
      (mkOpenAIService envWithKey upstreamDown).available = true ∧
      getAvailableServices envWithKey upstreamDown clearInstances =
        ([mkOpenAIService envWithKey upstreamDown],
         some (mkOpenAIService envWithKey upstreamDown))) :=
  ⟨⟨rfl, rfl⟩,
   registry_availability_frozen envNoKey envWithKey upstreamDown upstreamDown rfl rfl⟩
